import Mathlib

/-!
Shallow embedding of `src/autoslicer/autoslice.py` (class `AutoSlicer`,
class `Volume`, and the `__main__` command-line section).

Modelling conventions:

* Python floats are modelled as exact decimal numbers (`Dec`, an integer
  mantissa with a power-of-ten denominator); every float the program handles
  is read from a decimal literal and rounded to hundredths, so decimal
  arithmetic is exact on them.  `Dec.val` interprets such a number in `ℚ`
  for use in specification statements.
* Python strings are Lean `String`s.  String primitives used by the source
  (`split`, `strip`, `splitlines`, `lower`, `replace`) are re-implemented
  structurally on `List Char` so that concrete instances evaluate inside the
  kernel; `str.splitlines` is modelled for `"\n"` line breaks, which is what
  subprocess text output contains.
* Filesystem-dependent path resolution (`Path(...).expanduser().resolve()`)
  is an oracle parameter `resolve : String → String`; resolved paths are
  POSIX strings and `os.path.join dir name` is modelled for a directory
  without a trailing slash.
* Fallible Python code (a `try`/`except` that swallows the exception, an
  unpacking or a conversion that can raise) is modelled with `Option` /
  `Except`: `none` stands for the exceptional outcome.
* The external collaborators (the Tweaker orientation optimizer, the
  PrusaSlicer executable, `subprocess`) are opaque: the embedding takes
  their observable output (standard-output text) as input and produces the
  command lines the program would hand to them.
-/

namespace Autoslicer

/-- Numeric value of a decimal digit character, `none` on any other
character. -/
def digitVal (c : Char) : Option ℕ :=
  if '0' ≤ c ∧ c ≤ '9' then some (c.toNat - '0'.toNat) else none

/-- Base-10 accumulator over digit characters; fails on a non-digit. -/
def parseDigitsGo : List Char → ℕ → Option ℕ
  | [], acc => some acc
  | c :: cs, acc => (digitVal c).bind fun d => parseDigitsGo cs (acc * 10 + d)

/-- Value of a nonempty all-digit character sequence, read in base 10. -/
def parseDigits (l : List Char) : Option ℕ :=
  if l = [] then none else parseDigitsGo l 0

/-- Splitting of a character list on a separator character, Python
`str.split(sep)` style: `""` yields `[""]`, separators at the ends yield
empty pieces. -/
def splitOnCharGo (c : Char) : List Char → List Char → List (List Char)
  | [], acc => [acc.reverse]
  | x :: xs, acc =>
      if x = c then acc.reverse :: splitOnCharGo c xs []
      else splitOnCharGo c xs (x :: acc)

/-- Python `s.split(c)` for a single-character separator, on `List Char`. -/
def splitOnChar (c : Char) (l : List Char) : List (List Char) :=
  splitOnCharGo c l []

/-- Python `s.split(c)` for a single-character separator, on `String`. -/
def pySplit (c : Char) (s : String) : List String :=
  (splitOnChar c s.data).map String.mk

/-- Whitespace characters stripped by Python `str.strip()`. -/
def isPySpace (c : Char) : Bool :=
  c = ' ' || c = '\t' || c = '\n' || c = '\r' || c = '\x0b' || c = '\x0c'

/-- Python `str.strip()`: drop whitespace from both ends. -/
def pyStrip (s : String) : String :=
  String.mk (((s.data.dropWhile isPySpace).reverse.dropWhile isPySpace).reverse)

/-- Python `str.lower()` (ASCII case, which covers the extensions the program
compares). -/
def pyLower (s : String) : String :=
  String.mk (s.data.map Char.toLower)

/-- Python `str.splitlines()` restricted to `"\n"` separators: like splitting
on newlines, except that a trailing newline does not produce a final empty
line and the empty string has no lines. -/
def pySplitlines (s : String) : List String :=
  if s.data = [] then []
  else
    let ls := splitOnChar '\n' s.data
    let ls := if ls.getLast? = some [] then ls.dropLast else ls
    ls.map String.mk

/-- Exact decimal number `mant / 10 ^ exp`: the model of the Python floats
handled by the program, all of which are read from plain decimal literals. -/
structure Dec where
  mant : ℤ
  exp : ℕ
deriving DecidableEq

/-- Rational value of an exact decimal number. -/
def Dec.val (d : Dec) : ℚ :=
  (d.mant : ℚ) / 10 ^ d.exp

/-- Strict comparison of two exact decimals by cross-multiplication (the
model of a Python float `<` on the decimal values the program handles). -/
def Dec.blt (a b : Dec) : Bool :=
  decide (a.mant * 10 ^ b.exp < b.mant * 10 ^ a.exp)

/-- Larger of two exact decimals, keeping the first on ties exactly as
Python `max` does. -/
def Dec.pymax (a b : Dec) : Dec :=
  if Dec.blt a b then b else a

/-- Character list up to the first dot together with the remainder, when a
dot is present. -/
def splitAtDot : List Char → Option (List Char × List Char)
  | [] => none
  | '.' :: rest => some ([], rest)
  | c :: rest => (splitAtDot rest).map fun p => (c :: p.1, p.2)

/-- Unsigned decimal literal (integer part and/or fractional part, at least
one digit overall) as an exact decimal. -/
def parseDecimalBody (l : List Char) : Option Dec :=
  match splitAtDot l with
  | none => (parseDigits l).map fun n => ⟨(n : ℤ), 0⟩
  | some (ip, fp) =>
      if ip = [] ∧ fp = [] then none
      else
        match parseDigitsGo ip 0, parseDigitsGo fp 0 with
        | some ipv, some fpv => some ⟨(ipv : ℤ) * 10 ^ fp.length + fpv, fp.length⟩
        | _, _ => none

/-- Python `float(str)` on plain decimal literals: optional surrounding
whitespace and sign, then digits with an optional dot.  (Exponent forms,
`inf`/`nan` and underscore grouping are not modelled; the diagnostic lines
the program parses carry plain decimals.) -/
def parsePyFloat (s : String) : Option Dec :=
  match (pyStrip s).data with
  | '-' :: rest => (parseDecimalBody rest).map fun d => ⟨-d.mant, d.exp⟩
  | '+' :: rest => parseDecimalBody rest
  | l => parseDecimalBody l

/-- Python `int(str)`: optional surrounding whitespace and sign, then decimal
digits.  (Underscore grouping and non-decimal bases are not modelled.) -/
def parsePyInt (s : String) : Option ℤ :=
  match (pyStrip s).data with
  | '-' :: rest => (parseDigits rest).map fun n => -(n : ℤ)
  | '+' :: rest => (parseDigits rest).map fun n => (n : ℤ)
  | l => (parseDigits l).map fun n => (n : ℤ)

/-- Nearest integer to `a / b` for `0 < b`, ties to even: the rounding used
by Python `round` on the exact decimal values the program handles. -/
def roundHalfEvenInt (a b : ℤ) : ℤ :=
  if 2 * (a % b) < b then a / b
  else if b < 2 * (a % b) then a / b + 1
  else if (a / b) % 2 = 0 then a / b else a / b + 1

/-- Python `round(x, 2)` on an exact decimal value. -/
def pyRound2 (d : Dec) : Dec :=
  ⟨roundHalfEvenInt (d.mant * 100) (10 ^ d.exp), 2⟩

/-- Python `str` of a float whose value is a whole number of hundredths
(the only floats the program formats): sign, integer part, a dot, and the
fractional digits with a trailing zero trimmed — `"2.0"`, `"2.5"`,
`"2.05"`, `"2.35"`. -/
def pyFloatRepr (d : Dec) : String :=
  let sign := if d.mant < 0 then "-" else ""
  let n : ℕ := d.mant.natAbs * 100 / 10 ^ d.exp
  let ip : ℕ := n / 100
  let fr : ℕ := n % 100
  let fracStr :=
    if fr = 0 then "0"
    else if fr % 10 = 0 then toString (fr / 10)
    else if fr < 10 then "0" ++ toString fr
    else toString fr
  sign ++ toString ip ++ "." ++ fracStr

/-! ### Paths -/

/-- Model of `os.path.join dir name` for a directory without a trailing
slash. -/
def joinPath (dir name : String) : String :=
  dir ++ "/" ++ name

/-- Components of a POSIX path string, split at `"/"`. -/
def pathParts (p : String) : List String :=
  (splitOnChar '/' p.data).map String.mk

/-- Reassembly of POSIX path components with `"/"`, the inverse of
`pathParts`. -/
def joinParts : List String → String
  | [] => ""
  | [a] => a
  | a :: b :: rest => a ++ "/" ++ joinParts (b :: rest)

/-- Final component of a path string (`pathlib.PurePath.name` on a resolved
path). -/
def pathName (p : String) : String :=
  ((pathParts p).getLast?).getD ""

/-- Python `pathlib` stem of a final path component: the component without
its last suffix, where a suffix needs a dot that is neither the first nor
the last character of the name. -/
def pyStemOfName (name : String) : String :=
  let l := name.data
  let dotIdx : Option ℕ :=
    (List.range l.length).foldl
      (fun acc i => if l.get? i = some '.' then some i else acc) none
  match dotIdx with
  | some i => if 0 < i ∧ i < l.length - 1 then String.mk (l.take i) else name
  | none => name

/-- `pathlib.PurePath.stem` of a path string. -/
def pathStem (p : String) : String :=
  pyStemOfName (pathName p)

/-- String form of `pathlib.PurePath.with_name`: the final component of the
path replaced by `name`. -/
def pathWithName (p name : String) : String :=
  joinParts ((pathParts p).dropLast ++ [name])

/-- Directory part of a path string (`pathlib.PurePath.parent`, as it prints
for a path that is not the root). -/
def pathParent (p : String) : String :=
  joinParts ((pathParts p).dropLast)

/-! ### The `AutoSlicer` data model -/

/-- Model of class `Volume`: the container for one model to be sliced.
`args` holds the extra command-line items produced by `__parse_kwargs` for
this volume: each is either a generated `--key` string or a caller-supplied
value passed through unchanged (in the command line both are strings, so the
sum is over `String` twice).  In the source `tmp_path` and `unprintability`
start out as `""` placeholders and are assigned by `slice`. -/
structure Volume where
  path : String
  args : List (String ⊕ String)
  tmp_path : String
  unprintability : String
deriving DecidableEq

/-- Fields of an `AutoSlicer` instance used by `__runSlicer`: the resolved
slicer path, the resolved configuration path, the three strings read from
the configuration by `__config_parser`, and the accumulated volume list. -/
structure AutoSlicerState where
  slicer : String
  config_path : String
  layer_height : String
  filament_type : String
  printer_model : String
  volumes : List Volume
deriving DecidableEq

/-- Class attribute `AutoSlicer.treshold_supports = 1.0`. -/
def treshold_supports : Dec := ⟨10, 1⟩

/-- Class attribute `AutoSlicer.treshold_brim = 2.0`. -/
def treshold_brim : Dec := ⟨20, 1⟩

/-- Python `key.replace("_", "-")`: with a single-character pattern this is
a per-character substitution. -/
def underscoreToHyphen (s : String) : String :=
  String.mk (s.data.map fun c => if c = '_' then '-' else c)

/-- Model of `AutoSlicer.__parse_kwargs`: for each keyword/value pair, in
order, emit `--<key with underscores replaced by hyphens>` and then the
value itself, unmodified (`Sum.inl` marks the generated flag, `Sum.inr`
the untouched value). -/
def parse_kwargs {α : Type} (kwargs : List (String × α)) : List (String ⊕ α) :=
  kwargs.foldl
    (fun extended_cmd kv =>
      extended_cmd ++ [Sum.inl ("--" ++ underscoreToHyphen kv.1), Sum.inr kv.2])
    []

/-- Model of `AutoSlicer.add_volume`: the argument is `some` path text when
it can be cast to `pathlib.Path` and `none` otherwise, in which case the
method raises `TypeError` before touching the volume list.  On success the
input is expanded and resolved and one new `Volume` carrying the rendered
keyword arguments is appended. -/
def add_volume (resolve : String → String) (volumes : List Volume)
    (input : Option String) (kwargs : List (String × String)) :
    Except String (List Volume) :=
  match input with
  | none =>
      Except.error
        "input argument must be a pathlib.Path (or a type that supports casting to pathlib.Path, such as string)."
  | some s =>
      let input_file := resolve s
      let new_volume : Volume := ⟨input_file, parse_kwargs kwargs, "", ""⟩
      Except.ok (volumes ++ [new_volume])

/-! ### `__config_parser` -/

/-- Fields extracted from the printer configuration file by
`__config_parser`. -/
structure ParsedConfig where
  x1 : ℤ
  x2 : ℤ
  y1 : ℤ
  y2 : ℤ
  bed_center : ℚ × ℚ
  filament_type : String
  printer_model : String
  layer_height : String
deriving DecidableEq

/-- Elements of a list at even positions (Python `l[::2]`). -/
def everyOther {α : Type} : List α → List α
  | [] => []
  | [a] => [a]
  | a :: _ :: rest => a :: everyOther rest

/-- Elements of a list at odd positions (Python `l[1::2]`). -/
def everyOtherFrom1 {α : Type} (l : List α) : List α :=
  everyOther (l.drop 1)

/-- The integer list
`[int(i) for x in bed_shape.split(",") for i in x.split("x")]`;
`none` when some piece is not an integer literal (Python `int` raises). -/
def bed_shape_ints (bed_shape : String) : Option (List ℤ) :=
  ((pySplit ',' bed_shape).flatMap (fun x => pySplit 'x' x)).mapM parsePyInt

/-- Model of `AutoSlicer.__config_parser`: the configuration file, read through
`configparser` under an artificial `[top]` section, is abstracted as the
key/value association list it defines.  The flattened `bed_shape` integers
are split into the values at even positions (X) and odd positions (Y); each
group is collapsed with `set` — modelled by `List.dedup`, Python set
iteration order being unspecified — and destructured into exactly two
coordinates (`x1, x2 = list(set(...))` raises unless the set has exactly two
elements, modelled as `none`).  A missing key raises `KeyError`, also
`none`.  `bed_center` is `[(x1 + x2) / 2, (y1 + y2) / 2]`.

The part of `__config_parser` after the `bed_shape` list is computed, which
destructures the two deduplicated coordinate groups and reads the remaining
keys, is split off as `config_rest` so that the destructuring can be
analysed on its own. -/
def config_rest (cfg : List (String × String)) (xs ys : List ℤ) :
    Option ParsedConfig :=
  match xs, ys with
  | [x1, x2], [y1, y2] => do
      let ft ← cfg.lookup "filament_type"
      let pm ← cfg.lookup "printer_model"
      let lh ← cfg.lookup "layer_height"
      pure ⟨x1, x2, y1, y2, (((x1 : ℚ) + x2) / 2, ((y1 : ℚ) + y2) / 2), ft, pm, lh⟩
  | _, _ => none

/-- Model of `AutoSlicer.__config_parser`; see `config_rest` above for the
conventions. -/
def config_parse (cfg : List (String × String)) : Option ParsedConfig := do
  let bs ← cfg.lookup "bed_shape"
  let bed_shape ← bed_shape_ints bs
  config_rest cfg (everyOther bed_shape).dedup (everyOtherFrom1 bed_shape).dedup

/-! ### `__tweakFile` -/

/-- Model of `AutoSlicer.__tweakFile`.  The Tweaker subprocess is opaque, so
its standard-output text is an input.  On success the method returns the
tweaked file path `os.path.join(tmpdir, "tweaked.stl")` together with the
unprintability score: the fifth line from the end of stdout is destructured
as `_, temp = line.split(":")` (which raises unless the split has exactly
two parts), and the score is `str(round(float(temp.strip()), 2))`.  Any
failure (fewer than five lines, a different number of colons, a non-numeric
right-hand side) lands in the `except` clause, which prints a message and
returns `None` — here `none`. -/
def tweakFile (stdout : String) (tmpdir : String) : Option (String × String) := do
  let output_file := joinPath tmpdir "tweaked.stl"
  let lines := pySplitlines stdout
  if 5 ≤ lines.length then do
    let line ← lines.get? (lines.length - 5)
    match pySplit ':' line with
    | [_, temp] => do
        let d ← parsePyFloat (pyStrip temp)
        let unprintability := pyFloatRepr (pyRound2 d)
        pure (output_file, unprintability)
    | _ => none
  else none

/-! ### `__adjustHeight` -/

/-- Vertex of an STL mesh. -/
abbrev Point := ℚ × ℚ × ℚ

/-- Z coordinates of a mesh (`my_mesh.z`). -/
def meshZ (m : List Point) : List ℚ :=
  m.map (fun p => p.2.2)

/-- Minimum of a list of coordinates; `none` on the empty list, where numpy
`min` raises. -/
def listMin : List ℚ → Option ℚ
  | [] => none
  | a :: rest => some (rest.foldl min a)

/-- The numpy-stl `translate` call: add the vector to every vertex. -/
def translateMesh (m : List Point) (t : Point) : List Point :=
  m.map (fun p => (p.1 + t.1, p.2.1 + t.2.1, p.2.2 + t.2.2))

/-- Geometry part of `AutoSlicer.__adjustHeight`: translate the mesh by the
single vector `(0, 0, -my_mesh.z.min())`.  A mesh with no vertices makes
numpy `min` raise, which the bare `except` turns into `None`. -/
def adjustHeightMesh (m : List Point) : Option (List Point) :=
  match listMin (meshZ m) with
  | none => none
  | some zmin => some (translateMesh m (0, 0, -zmin))

/-! ### `__runSlicer` -/

/-- Line 177 of the source:
`max([float(v.unprintability) for v in self.volumes])`.  `none` when some
score string is not numeric (`float` raises) or the volume list is empty
(`max` of an empty sequence raises `ValueError`). -/
def volumesUnprintability (volumes : List Volume) : Option Dec := do
  let us ← volumes.mapM (fun v => parsePyFloat v.unprintability)
  match us with
  | [] => none
  | a :: rest => pure (rest.foldl Dec.pymax a)

/-- Model of `AutoSlicer.__runSlicer`, up to the `subprocess.run(cmd)` call:
the assembled command line together with the assembled output file path.
The command starts `[slicer, "--load", config_path, "-g", "--merge"]`, then
each volume contributes its tweaked temporary path followed by its stored
extra arguments; the output name is built from the stem of the resolved
output path, the layer height, the maximum unprintability, the literal
`"{print_time}"` placeholder (PrusaSlicer fills it in), the filament type,
the printer model and `".gcode"`; the two threshold comparisons append
brim/skirt flags and the support flag; the keyword arguments rendered by
`__parse_kwargs` and `--output` close the command. -/
def runSlicer (resolve : String → String) (st : AutoSlicerState)
    (output_path : String) (kwargs : List (String × String)) :
    Option (List String × String) :=
  let cmd := [st.slicer, "--load", st.config_path, "-g", "--merge"]
  let cmd := cmd ++ st.volumes.flatMap
    (fun v => v.tmp_path :: v.args.map (Sum.elim id id))
  match volumesUnprintability st.volumes with
  | none => none
  | some unprintability =>
      let p := resolve output_path
      let output_name := pathStem p ++ "_" ++ st.layer_height ++ "mm"
      let output_name := output_name ++ "_U" ++ pyFloatRepr unprintability
        ++ "_\x7bprint_time\x7d"
      let output_name := output_name ++ "_" ++ st.filament_type ++ "_"
        ++ st.printer_model ++ ".gcode"
      let output_file := pathWithName p output_name
      let cmd := cmd ++ (if treshold_brim.blt unprintability then
        ["--brim-width", "5", "--skirt-distance", "6"] else [])
      let cmd := cmd ++ (if treshold_supports.blt unprintability then
        ["--support-material"] else [])
      let cmd := cmd ++ (parse_kwargs kwargs).map (Sum.elim id id)
      let cmd := cmd ++ ["--output", output_file]
      some (cmd, output_file)

/-! ### `slice` and the temporary directory -/

/-- Does a path sit inside the temporary directory (the directory itself or
anything under it)? -/
def underTmpdir (tmpdir p : String) : Bool :=
  p = tmpdir || (tmpdir ++ "/").data.isPrefixOf p.data

/-- Exit of the `tempfile.TemporaryDirectory` context manager: the directory
and everything inside it are removed.  The filesystem is abstracted as the
list of existing file paths. -/
def teardownTmpdir (fs : List String) (tmpdir : String) : List String :=
  fs.filter (fun p => !underTmpdir tmpdir p)

/-- File creation on the abstract filesystem (creating an existing path
overwrites it in place). -/
def createFile (fs : List String) (p : String) : List String :=
  if p ∈ fs then fs else fs ++ [p]

/-- The fixed tweaked-mesh path written by `__tweakFile`. -/
def tweaked_file (tmpdir : String) : String :=
  joinPath tmpdir "tweaked.stl"

/-- The translated-mesh path `translated_<i>.stl` used by
`__adjustHeight`. -/
def translated_file (tmpdir : String) (i : ℕ) : String :=
  joinPath tmpdir ("translated_" ++ toString i ++ ".stl")

/-- Fuel-indexed unfolding of the `while output_file.exists()` loop of
`__adjustHeight`; the loop stops at the first free `translated_<i>.stl`. -/
def freshTranslatedGo (fs : List String) (tmpdir : String) : ℕ → ℕ → String
  | 0, i => translated_file tmpdir i
  | fuel + 1, i =>
      if translated_file tmpdir i ∈ fs then freshTranslatedGo fs tmpdir fuel (i + 1)
      else translated_file tmpdir i

/-- Collision-avoiding translated-mesh path chosen by `__adjustHeight`
(starting from index 1; `fs.length + 1` rounds of fuel are enough to leave
the finitely many existing paths behind). -/
def freshTranslated (fs : List String) (tmpdir : String) : String :=
  freshTranslatedGo fs tmpdir (fs.length + 1) 1

/-- Files written inside the `slice` loop for `n` volumes: each iteration
writes the (fixed) tweaked path and then a fresh translated path. -/
def sliceWrites (tmpdir : String) : ℕ → List String → List String
  | 0, fs => fs
  | n + 1, fs =>
      let fs := createFile fs (tweaked_file tmpdir)
      let fs := createFile fs (freshTranslated fs tmpdir)
      sliceWrites tmpdir n fs

/-- Filesystem effect of one `slice` call: the per-volume intermediate
writes, the slicer's output file, then the teardown of the temporary
directory when the `with` block exits. -/
def slice_fs (fs : List String) (tmpdir : String) (n : ℕ)
    (output_file : String) : List String :=
  teardownTmpdir (createFile (sliceWrites tmpdir n fs) output_file) tmpdir

/-! ### The `__main__` argument validation -/

/-- Facts about the environment that the `__main__` validation sequence
consults: whether the input file, output folder, slicer executable and
printer configuration file exist, and the text after the last dot of the
input file name (`args.inputFile.rsplit(".", 1)`). -/
structure MainEnv where
  input_exists : Bool
  input_extension : String
  output_exists : Bool
  slicer_exists : Bool
  config_exists : Bool
deriving DecidableEq

/-- Outcome of the validation sequence: the diagnostic lines printed to
standard output (the absolute-path arguments of the prints are elided) and
whether `exit()` was called. -/
structure MainValidation where
  printed : List String
  exited : Bool
deriving DecidableEq

/-- Model of the argument validation in the `__main__` section: a missing
input file or a wrong extension prints an error and calls `exit()`; a
missing output folder is created with a note; a missing slicer executable
or a missing printer configuration file prints an error but does **not**
call `exit()`, and execution falls through to the `AutoSlicer`
construction. -/
def main_validate (env : MainEnv) : MainValidation :=
  if env.input_exists = false then
    ⟨["Error: input file not found"], true⟩
  else if (pyLower env.input_extension ∈ (["stl", "3mf"] : List String)) = false then
    ⟨["Error: input file has invalid format",
      "Files need to be .stl or .3mf, not ." ++ pyLower env.input_extension], true⟩
  else
    ⟨(if env.output_exists = false then ["Output path not found, creating"] else [])
      ++ (if env.slicer_exists = false then ["Error: slicer not found at"] else [])
      ++ (if env.config_exists = false then
            ["Error: printer config file not found at"] else []),
     false⟩

/-! ### Helper lemmas -/

/-- Cross-multiplication comparison agrees with the rational values. -/
theorem Dec.blt_iff (a b : Dec) : Dec.blt a b = true ↔ a.val < b.val := by
  unfold Dec.blt Dec.val
  rw [decide_eq_true_eq, div_lt_div_iff₀ (by positivity) (by positivity)]
  constructor <;> intro h <;> exact_mod_cast h

theorem treshold_supports_val : treshold_supports.val = 1 := by
  norm_num [treshold_supports, Dec.val]

theorem treshold_brim_val : treshold_brim.val = 2 := by
  norm_num [treshold_brim, Dec.val]

theorem foldl_append_eq_flatMap {α β : Type} (f : α → List β) (l : List α)
    (acc : List β) :
    l.foldl (fun r kv => r ++ f kv) acc = acc ++ l.flatMap f := by
  induction l generalizing acc with
  | nil => simp
  | cons a t ih => simp [ih, List.flatMap_cons]

theorem joinParts_append_singleton (xs : List String) (n : String)
    (h : xs ≠ []) :
    joinParts (xs ++ [n]) = joinParts xs ++ "/" ++ n := by
  induction xs with
  | nil => exact absurd rfl h
  | cons a t ih =>
      cases t with
      | nil => simp [joinParts]
      | cons b r =>
          have ht : b :: r ≠ [] := by simp
          calc joinParts ((a :: b :: r) ++ [n])
              = a ++ "/" ++ joinParts ((b :: r) ++ [n]) := by simp [joinParts]
            _ = a ++ "/" ++ (joinParts (b :: r) ++ "/" ++ n) := by rw [ih ht]
            _ = joinParts (a :: b :: r) ++ "/" ++ n := by
                simp [joinParts, String.append_assoc]

theorem foldl_min_map_add (t : List ℚ) (a c : ℚ) :
    (t.map (fun x => x + c)).foldl min (a + c) = t.foldl min a + c := by
  induction t generalizing a with
  | nil => simp
  | cons b r ih =>
      simp only [List.map_cons, List.foldl_cons]
      rw [min_add_add_right, ih (min a b)]

theorem listMin_map_add (l : List ℚ) (c : ℚ) :
    listMin (l.map (fun x => x + c)) = (listMin l).map (fun x => x + c) := by
  cases l with
  | nil => rfl
  | cons a t => simp [listMin, foldl_min_map_add]

/-- Round-half-to-even maps `a / b` to an integer within one half. -/
theorem roundHalfEvenInt_close (a b : ℤ) (hb : 0 < b) :
    |(roundHalfEvenInt a b : ℚ) - (a : ℚ) / b| ≤ 1 / 2 := by
  have hbq : (0 : ℚ) < (b : ℚ) := by exact_mod_cast hb
  have hr0 : (0 : ℤ) ≤ a % b := Int.emod_nonneg a (ne_of_gt hb)
  have hrb : a % b < b := Int.emod_lt_of_pos a hb
  have hr0q : (0 : ℚ) ≤ ((a % b : ℤ) : ℚ) := by exact_mod_cast hr0
  have hrbq : ((a % b : ℤ) : ℚ) < (b : ℚ) := by exact_mod_cast hrb
  have hab : (a : ℚ) = (b : ℚ) * ((a / b : ℤ) : ℚ) + ((a % b : ℤ) : ℚ) := by
    exact_mod_cast (Int.ediv_add_emod a b).symm
  have hdiv : (a : ℚ) / (b : ℚ)
      = ((a / b : ℤ) : ℚ) + ((a % b : ℤ) : ℚ) / (b : ℚ) := by
    rw [hab]; field_simp; ring
  unfold roundHalfEvenInt
  split_ifs with h1 h2 h3
  · have h1q : 2 * ((a % b : ℤ) : ℚ) < (b : ℚ) := by exact_mod_cast h1
    rw [hdiv]
    have he : ((a / b : ℤ) : ℚ) - (((a / b : ℤ) : ℚ) + ((a % b : ℤ) : ℚ) / b)
        = -(((a % b : ℤ) : ℚ) / b) := by ring
    rw [he, abs_neg, abs_of_nonneg (div_nonneg hr0q hbq.le), div_le_iff₀ hbq]
    linarith
  · have h2q : (b : ℚ) < 2 * ((a % b : ℤ) : ℚ) := by exact_mod_cast h2
    rw [hdiv]
    have he : (((a / b + 1 : ℤ)) : ℚ)
        - (((a / b : ℤ) : ℚ) + ((a % b : ℤ) : ℚ) / b)
        = 1 - ((a % b : ℤ) : ℚ) / b := by push_cast; ring
    rw [he, abs_of_nonneg (by rw [sub_nonneg, div_le_one hbq]; exact hrbq.le)]
    have hhalf : 1 / 2 ≤ ((a % b : ℤ) : ℚ) / b := by
      rw [le_div_iff₀ hbq]
      linarith
    linarith
  · have htie : 2 * (a % b) = b := by omega
    have htq : ((a % b : ℤ) : ℚ) / b = 1 / 2 := by
      have : (b : ℚ) = 2 * ((a % b : ℤ) : ℚ) := by exact_mod_cast htie.symm
      rw [this]
      have hpos : ((a % b : ℤ) : ℚ) ≠ 0 := by
        intro h0
        rw [h0, mul_zero] at this
        exact absurd this (ne_of_gt hbq)
      field_simp
      ring
    rw [hdiv, htq]
    have he : ((a / b : ℤ) : ℚ) - (((a / b : ℤ) : ℚ) + 1 / 2) = -(1 / 2) := by
      ring
    rw [he, abs_neg, abs_of_nonneg (by norm_num)]
  · have htie : 2 * (a % b) = b := by omega
    have htq : ((a % b : ℤ) : ℚ) / b = 1 / 2 := by
      have : (b : ℚ) = 2 * ((a % b : ℤ) : ℚ) := by exact_mod_cast htie.symm
      rw [this]
      have hpos : ((a % b : ℤ) : ℚ) ≠ 0 := by
        intro h0
        rw [h0, mul_zero] at this
        exact absurd this (ne_of_gt hbq)
      field_simp
      ring
    rw [hdiv, htq]
    have he : (((a / b + 1 : ℤ)) : ℚ) - (((a / b : ℤ) : ℚ) + 1 / 2) = 1 / 2 := by
      push_cast; ring
    rw [he, abs_of_nonneg (by norm_num)]

/-- Rounding to two decimal places moves the value by at most `1 / 200`. -/
theorem pyRound2_close (d : Dec) : |(pyRound2 d).val - d.val| ≤ 1 / 200 := by
  have h := roundHalfEvenInt_close (d.mant * 100) (10 ^ d.exp) (by positivity)
  have he : (pyRound2 d).val - d.val
      = ((roundHalfEvenInt (d.mant * 100) (10 ^ d.exp) : ℚ)
          - ((d.mant * 100 : ℤ) : ℚ) / ((10 ^ d.exp : ℤ) : ℚ)) / 100 := by
    unfold pyRound2 Dec.val
    push_cast
    have hp : ((10 : ℚ) ^ d.exp) ≠ 0 := by positivity
    field_simp
    ring
  rw [he, abs_div, abs_of_pos (by norm_num : (0 : ℚ) < 100)]
  calc |(roundHalfEvenInt (d.mant * 100) (10 ^ d.exp) : ℚ)
        - ((d.mant * 100 : ℤ) : ℚ) / ((10 ^ d.exp : ℤ) : ℚ)| / 100
      ≤ (1 / 2) / 100 := by
        apply div_le_div_of_nonneg_right h ?_ |>.trans_eq rfl
        norm_num
    _ = 1 / 200 := by norm_num

/-- The value of `pyRound2` is a whole number of hundredths. -/
theorem pyRound2_hundredths (d : Dec) :
    (pyRound2 d).val
      = (roundHalfEvenInt (d.mant * 100) (10 ^ d.exp) : ℚ) / 100 := by
  unfold pyRound2 Dec.val
  norm_num

theorem createFile_eq (fs : List String) (p : String) :
    createFile fs p = fs ++ (if p ∈ fs then [] else [p]) := by
  unfold createFile
  split_ifs <;> simp

theorem underTmpdir_joinPath (tmpdir x : String) :
    underTmpdir tmpdir (joinPath tmpdir x) = true := by
  unfold underTmpdir joinPath
  apply Bool.or_eq_true_iff.mpr
  right
  rw [List.isPrefixOf_iff_prefix]
  exact ⟨x.data, by rw [← String.data_append]⟩

theorem freshTranslatedGo_shape (fs : List String) (tmpdir : String)
    (fuel i : ℕ) :
    ∃ k, freshTranslatedGo fs tmpdir fuel i = translated_file tmpdir k := by
  induction fuel generalizing i with
  | zero => exact ⟨i, rfl⟩
  | succ m ih =>
      unfold freshTranslatedGo
      split_ifs with h
      · exact ih (i + 1)
      · exact ⟨i, rfl⟩

theorem sliceWrites_split (tmpdir : String) (n : ℕ) (fs : List String) :
    ∃ adds : List String, sliceWrites tmpdir n fs = fs ++ adds ∧
      ∀ q ∈ adds, underTmpdir tmpdir q = true := by
  induction n generalizing fs with
  | zero => exact ⟨[], by simp [sliceWrites], by simp⟩
  | succ m ih =>
      obtain ⟨k, hk⟩ := freshTranslatedGo_shape
        (createFile fs (tweaked_file tmpdir)) tmpdir
        ((createFile fs (tweaked_file tmpdir)).length + 1) 1
      obtain ⟨adds, hadds, hunder⟩ :=
        ih (createFile (createFile fs (tweaked_file tmpdir))
          (freshTranslated (createFile fs (tweaked_file tmpdir)) tmpdir))
      refine ⟨(if tweaked_file tmpdir ∈ fs then [] else [tweaked_file tmpdir])
        ++ (if freshTranslated (createFile fs (tweaked_file tmpdir)) tmpdir
              ∈ createFile fs (tweaked_file tmpdir) then []
            else [freshTranslated (createFile fs (tweaked_file tmpdir)) tmpdir])
        ++ adds, ?_, ?_⟩
      · show sliceWrites tmpdir m _ = _
        rw [hadds, createFile_eq, createFile_eq]
        simp [List.append_assoc]
      · intro q hq
        simp only [List.mem_append] at hq
        rcases hq with (hq | hq) | hq
        · by_cases hc : tweaked_file tmpdir ∈ fs
          · simp [hc] at hq
          · simp [hc] at hq
            subst hq
            exact underTmpdir_joinPath tmpdir "tweaked.stl"
        · by_cases hc : freshTranslated (createFile fs (tweaked_file tmpdir)) tmpdir
              ∈ createFile fs (tweaked_file tmpdir)
          · simp [hc] at hq
          · simp [hc] at hq
            subst hq
            unfold freshTranslated
            rw [hk]
            exact underTmpdir_joinPath tmpdir _
        · exact hunder q hq

theorem config_rest_eq_none (cfg : List (String × String)) (xs ys : List ℤ)
    (h : xs.length ≠ 2 ∨ ys.length ≠ 2) :
    config_rest cfg xs ys = none := by
  rcases xs with - | ⟨a, - | ⟨b, - | ⟨c, t⟩⟩⟩ <;>
    rcases ys with - | ⟨d, - | ⟨e, - | ⟨f, w⟩⟩⟩ <;>
      simp_all [config_rest]

theorem config_rest_lengths (cfg : List (String × String)) (xs ys : List ℤ)
    (r : ParsedConfig) (h : config_rest cfg xs ys = some r) :
    xs.length = 2 ∧ ys.length = 2 := by
  rcases xs with - | ⟨a, - | ⟨b, - | ⟨c, t⟩⟩⟩ <;>
    rcases ys with - | ⟨d, - | ⟨e, - | ⟨f, w⟩⟩⟩ <;>
      simp_all [config_rest]

/-! ### The claims -/

/-- C7: `__parse_kwargs` emits, for each key/value pair in order, the two
elements `--<key with every underscore replaced by a hyphen>` and the
unmodified value; in particular `__parse_kwargs(a=1)` yields
`["--a", 1]`. -/
theorem parse_kwargs_emits_flag_value_pairs :
    (∀ (α : Type) (kwargs : List (String × α)),
      parse_kwargs kwargs
        = kwargs.flatMap
            (fun kv => [Sum.inl ("--" ++ underscoreToHyphen kv.1), Sum.inr kv.2]))
    ∧ parse_kwargs [("a", (1 : ℤ))] = [Sum.inl "--a", Sum.inr 1]
    ∧ parse_kwargs [("fill_pattern", "grid")]
        = [Sum.inl "--fill-pattern", Sum.inr "grid"] := by
  refine ⟨fun α kwargs => ?_, by rfl, by rfl⟩
  unfold parse_kwargs
  rw [foldl_append_eq_flatMap
    (fun kv => [Sum.inl ("--" ++ underscoreToHyphen kv.1), Sum.inr kv.2]) kwargs []]
  rfl

/-- C9: `add_volume` raises `TypeError` exactly when the input cannot be
cast to `pathlib.Path` (modelled as `input = none`), in which case the
volume list is untouched; otherwise it appends exactly one new `Volume`
whose path is the expanded and resolved input and whose args come from
`__parse_kwargs`, leaving the previously added volumes unmodified in
place. -/
theorem add_volume_appends_or_raises (resolve : String → String)
    (volumes : List Volume) (input : Option String)
    (kwargs : List (String × String)) :
    ((∃ msg, add_volume resolve volumes input kwargs = Except.error msg)
      ↔ input = none)
    ∧ (∀ s, input = some s →
        add_volume resolve volumes input kwargs
          = Except.ok (volumes ++ [⟨resolve s, parse_kwargs kwargs, "", ""⟩])) := by
  cases input <;> simp [add_volume]

/-- C9 witness: a castable input appends one resolved volume after the
existing one. -/
theorem add_volume_appends_or_raises_witness :
    add_volume id [⟨"/old.stl", [], "", ""⟩] (some "/m.stl") [("a", "1")]
      = Except.ok [⟨"/old.stl", [], "", ""⟩,
          ⟨"/m.stl", [Sum.inl "--a", Sum.inr "1"], "", ""⟩] :=
  ((add_volume_appends_or_raises id [⟨"/old.stl", [], "", ""⟩] (some "/m.stl")
    [("a", "1")]).2 "/m.stl" rfl).trans rfl

/-- C6: on a well-formed configuration, `__config_parser` produces the bed
coordinates, `bed_center` equal to the midpoint
`((x1 + x2) / 2, (y1 + y2) / 2)` of the two distinct X and two distinct Y
bed-shape coordinates, and the filament type, printer model and layer
height read from the named keys. -/
theorem config_parse_well_formed (cfg : List (String × String))
    (bs ft pm lh : String) (L : List ℤ) (x1 x2 y1 y2 : ℤ)
    (hbs : cfg.lookup "bed_shape" = some bs)
    (hL : bed_shape_ints bs = some L)
    (hx : (everyOther L).dedup = [x1, x2])
    (hy : (everyOtherFrom1 L).dedup = [y1, y2])
    (hft : cfg.lookup "filament_type" = some ft)
    (hpm : cfg.lookup "printer_model" = some pm)
    (hlh : cfg.lookup "layer_height" = some lh) :
    config_parse cfg
      = some ⟨x1, x2, y1, y2,
          (((x1 : ℚ) + x2) / 2, ((y1 : ℚ) + y2) / 2), ft, pm, lh⟩
    ∧ x1 ≠ x2 ∧ y1 ≠ y2 := by
  refine ⟨?_, ?_, ?_⟩
  · simp [config_parse, config_rest, hbs, hL, hx, hy, hft, hpm, hlh]
  · have hnd := List.nodup_dedup (everyOther L)
    rw [hx] at hnd
    simp only [List.nodup_cons, List.mem_singleton] at hnd
    exact hnd.1
  · have hnd := List.nodup_dedup (everyOtherFrom1 L)
    rw [hy] at hnd
    simp only [List.nodup_cons, List.mem_singleton] at hnd
    exact hnd.1

/-- C6 witness: a PrusaSlicer-style bed shape of four corner points. -/
theorem config_parse_well_formed_witness :
    config_parse [("bed_shape", "0x0,250x0,250x210,0x210"),
        ("filament_type", "PLA"), ("printer_model", "MK3S"),
        ("layer_height", "0.2")]
      = some ⟨250, 0, 0, 210,
          ((((250 : ℤ) : ℚ) + ((0 : ℤ) : ℚ)) / 2,
            (((0 : ℤ) : ℚ) + ((210 : ℤ) : ℚ)) / 2), "PLA", "MK3S", "0.2"⟩
    ∧ (250 : ℤ) ≠ 0 ∧ (0 : ℤ) ≠ 210 :=
  config_parse_well_formed _ "0x0,250x0,250x210,0x210" "PLA" "MK3S" "0.2"
    [0, 0, 250, 0, 250, 210, 0, 210] 250 0 0 210
    (by decide) (by decide) (by decide) (by decide)
    (by decide) (by decide) (by decide)

/-- C10: configuration parsing succeeds only when the `bed_shape` entry
yields exactly two distinct X values and exactly two distinct Y values, and
it raises (modelled as `none`) whenever the X or Y values are not exactly
two distinct integers. -/
theorem config_parse_needs_two_distinct (cfg : List (String × String))
    (bs : String) (hbs : cfg.lookup "bed_shape" = some bs) :
    (bed_shape_ints bs = none → config_parse cfg = none)
    ∧ ∀ L, bed_shape_ints bs = some L →
        ((((everyOther L).dedup.length ≠ 2 ∨ (everyOtherFrom1 L).dedup.length ≠ 2) →
          config_parse cfg = none)
        ∧ ∀ r, config_parse cfg = some r →
            (everyOther L).dedup.length = 2 ∧ (everyOtherFrom1 L).dedup.length = 2) := by
  constructor
  · intro h
    simp [config_parse, hbs, h]
  · intro L hL
    constructor
    · intro hbad
      simp [config_parse, hbs, hL, config_rest_eq_none cfg _ _ hbad]
    · intro r hr
      simp only [config_parse, hbs, hL, Option.bind_eq_bind, Option.some_bind] at hr
      exact config_rest_lengths cfg _ _ r hr

/-- C10 witness: a degenerate bed shape with a single distinct X value is
rejected. -/
theorem config_parse_needs_two_distinct_witness :
    config_parse [("bed_shape", "0x0,0x210"), ("filament_type", "PLA"),
        ("printer_model", "MK3S"), ("layer_height", "0.2")]
      = none :=
  (((config_parse_needs_two_distinct _ "0x0,0x210" (by decide)).2
    [0, 0, 0, 210] (by decide)).1) (by decide)

/-- C2: `__tweakFile` takes the fifth line from the end of the optimizer's
diagnostic standard output, splits it at the colon, converts the right-hand
part to a number, and returns the tweaked file path together with that score
rounded to two decimal places (the rounded value is a whole number of
hundredths within `1/200` of the parsed value). -/
theorem tweakFile_parses_score (stdout tmpdir line lhs temp : String) (d : Dec)
    (hlen : 5 ≤ (pySplitlines stdout).length)
    (hline : (pySplitlines stdout)[(pySplitlines stdout).length - 5]?
      = some line)
    (hsplit : pySplit ':' line = [lhs, temp])
    (hd : parsePyFloat (pyStrip temp) = some d) :
    tweakFile stdout tmpdir
      = some (joinPath tmpdir "tweaked.stl", pyFloatRepr (pyRound2 d))
    ∧ (pyRound2 d).val * 100
      = (roundHalfEvenInt (d.mant * 100) (10 ^ d.exp) : ℚ)
    ∧ |(pyRound2 d).val - d.val| ≤ 1 / 200 := by
  refine ⟨?_, ?_, pyRound2_close d⟩
  · simp [tweakFile, hlen, hline, hsplit, hd]
  · rw [pyRound2_hundredths]
    field_simp

/-- C2 witness: a five-line diagnostic output whose first line carries the
score. -/
theorem tweakFile_parses_score_witness :
    tweakFile "Unprintability: 2.345\nb\nc\nd\ne" "/tmp/job"
      = some (joinPath "/tmp/job" "tweaked.stl", pyFloatRepr (pyRound2 ⟨2345, 3⟩))
    ∧ (pyRound2 ⟨2345, 3⟩).val * 100
      = (roundHalfEvenInt ((2345 : ℤ) * 100) (10 ^ (3 : ℕ)) : ℚ)
    ∧ |(pyRound2 ⟨2345, 3⟩).val - Dec.val ⟨2345, 3⟩| ≤ 1 / 200 :=
  tweakFile_parses_score "Unprintability: 2.345\nb\nc\nd\ne" "/tmp/job"
    "Unprintability: 2.345" "Unprintability" " 2.345" ⟨2345, 3⟩
    (by decide) (by decide) (by decide) (by decide)

/-- C3: `__adjustHeight` re-translates the mesh by the single vector
`(0, 0, -min Z)`, so the resulting mesh's minimum Z coordinate is zero while
every X and Y coordinate is unchanged. -/
theorem adjustHeight_zeroes_min_z (m : List Point) (hm : m ≠ []) :
    ∃ zmin, listMin (meshZ m) = some zmin
      ∧ adjustHeightMesh m = some (translateMesh m (0, 0, -zmin))
      ∧ listMin (meshZ (translateMesh m (0, 0, -zmin))) = some 0
      ∧ (translateMesh m (0, 0, -zmin)).map (fun p => (p.1, p.2.1))
          = m.map (fun p => (p.1, p.2.1)) := by
  obtain ⟨a, t, rfl⟩ : ∃ a t, m = a :: t := by
    cases m with
    | nil => exact absurd rfl hm
    | cons a t => exact ⟨a, t, rfl⟩
  refine ⟨(meshZ t).foldl min a.2.2, rfl, rfl, ?_, ?_⟩
  · have hz : meshZ (translateMesh (a :: t) (0, 0, -((meshZ t).foldl min a.2.2)))
        = (meshZ (a :: t)).map
            (fun z => z + -((meshZ t).foldl min a.2.2)) := by
      simp [meshZ, translateMesh, List.map_map]
    rw [hz, listMin_map_add]
    have : listMin (meshZ (a :: t)) = some ((meshZ t).foldl min a.2.2) := rfl
    rw [this]
    simp
  · simp only [translateMesh, List.map_map]
    apply List.map_congr_left
    intro p hp
    simp

/-- C3 witness: a one-vertex mesh at height 3 is brought down to height
zero. -/
theorem adjustHeight_zeroes_min_z_witness :
    ∃ zmin, listMin (meshZ [((1 : ℚ), 2, 3)]) = some zmin
      ∧ adjustHeightMesh [((1 : ℚ), 2, 3)]
          = some (translateMesh [((1 : ℚ), 2, 3)] (0, 0, -zmin))
      ∧ listMin (meshZ (translateMesh [((1 : ℚ), 2, 3)] (0, 0, -zmin))) = some 0
      ∧ (translateMesh [((1 : ℚ), 2, 3)] (0, 0, -zmin)).map
            (fun p => (p.1, p.2.1))
          = [((1 : ℚ), 2, 3)].map (fun p => (p.1, p.2.1)) :=
  adjustHeight_zeroes_min_z [((1 : ℚ), 2, 3)] (by simp)

/-- C1: `__runSlicer` selects extra flags from the volumes' maximum
unprintability with the two fixed thresholds `treshold_brim = 2.0` and
`treshold_supports = 1.0`: above `2.0` the command gains
`--brim-width 5 --skirt-distance 6` (and, being above `1.0` as well,
`--support-material`); above `1.0` it gains `--support-material`; at most
`1.0` neither group is added. -/
theorem runSlicer_threshold_flags (resolve : String → String)
    (st : AutoSlicerState) (output_path : String)
    (kwargs : List (String × String)) (u : Dec)
    (hu : volumesUnprintability st.volumes = some u) :
    ∃ extra cmd output_file,
      runSlicer resolve st output_path kwargs = some (cmd, output_file)
      ∧ cmd = [st.slicer, "--load", st.config_path, "-g", "--merge"]
          ++ st.volumes.flatMap
              (fun v => v.tmp_path :: v.args.map (Sum.elim id id))
          ++ extra
          ++ (parse_kwargs kwargs).map (Sum.elim id id)
          ++ ["--output", output_file]
      ∧ treshold_brim.val = 2 ∧ treshold_supports.val = 1
      ∧ ((2 : ℚ) < u.val →
          extra = ["--brim-width", "5", "--skirt-distance", "6",
            "--support-material"])
      ∧ ((1 : ℚ) < u.val ∧ u.val ≤ 2 → extra = ["--support-material"])
      ∧ (u.val ≤ 1 → extra = []) := by
  have hb := Dec.blt_iff treshold_brim u
  rw [treshold_brim_val] at hb
  have hs := Dec.blt_iff treshold_supports u
  rw [treshold_supports_val] at hs
  refine ⟨(if treshold_brim.blt u then
        ["--brim-width", "5", "--skirt-distance", "6"] else [])
      ++ (if treshold_supports.blt u then ["--support-material"] else []),
    [st.slicer, "--load", st.config_path, "-g", "--merge"]
      ++ st.volumes.flatMap (fun v => v.tmp_path :: v.args.map (Sum.elim id id))
      ++ ((if treshold_brim.blt u then
            ["--brim-width", "5", "--skirt-distance", "6"] else [])
          ++ (if treshold_supports.blt u then ["--support-material"] else []))
      ++ (parse_kwargs kwargs).map (Sum.elim id id)
      ++ ["--output", pathWithName (resolve output_path)
            (pathStem (resolve output_path) ++ "_" ++ st.layer_height ++ "mm"
              ++ "_U" ++ pyFloatRepr u ++ "_\x7bprint_time\x7d"
              ++ "_" ++ st.filament_type ++ "_" ++ st.printer_model ++ ".gcode")],
    pathWithName (resolve output_path)
      (pathStem (resolve output_path) ++ "_" ++ st.layer_height ++ "mm"
        ++ "_U" ++ pyFloatRepr u ++ "_\x7bprint_time\x7d"
        ++ "_" ++ st.filament_type ++ "_" ++ st.printer_model ++ ".gcode"),
    ?_, rfl, treshold_brim_val, treshold_supports_val, ?_, ?_, ?_⟩
  · unfold runSlicer
    rw [hu]
    dsimp only
    simp [List.append_assoc]
  · intro h2
    have hbT : treshold_brim.blt u = true := hb.mpr h2
    have hsT : treshold_supports.blt u = true := hs.mpr (by linarith)
    rw [hbT, hsT]
    rfl
  · rintro ⟨h1, h2⟩
    have hbF : treshold_brim.blt u = false := by
      cases hbc : treshold_brim.blt u
      · rfl
      · exact absurd (hb.mp hbc) (not_lt.mpr h2)
    have hsT : treshold_supports.blt u = true := hs.mpr h1
    rw [hbF, hsT]
    rfl
  · intro h1
    have hbF : treshold_brim.blt u = false := by
      cases hbc : treshold_brim.blt u
      · rfl
      · exact absurd (hb.mp hbc) (by linarith)
    have hsF : treshold_supports.blt u = false := by
      cases hsc : treshold_supports.blt u
      · rfl
      · exact absurd (hs.mp hsc) (not_lt.mpr h1)
    rw [hbF, hsF]
    rfl

/-- C1 witness: one volume with score `2.5` turns on all four extra
flags. -/
theorem runSlicer_threshold_flags_witness :
    ∃ extra cmd output_file,
      runSlicer id ⟨"/sl", "/cfg.ini", "0.2", "PLA", "MK3S",
          [⟨"/in.stl", [], "/tmp/t/translated_1.stl", "2.5"⟩]⟩
        "/prints/model.stl" [] = some (cmd, output_file)
      ∧ cmd = ["/sl", "--load", "/cfg.ini", "-g", "--merge"]
          ++ [⟨"/in.stl", [], "/tmp/t/translated_1.stl", "2.5"⟩].flatMap
              (fun v : Volume => v.tmp_path :: v.args.map (Sum.elim id id))
          ++ extra
          ++ (parse_kwargs ([] : List (String × String))).map (Sum.elim id id)
          ++ ["--output", output_file]
      ∧ treshold_brim.val = 2 ∧ treshold_supports.val = 1
      ∧ ((2 : ℚ) < Dec.val ⟨25, 1⟩ →
          extra = ["--brim-width", "5", "--skirt-distance", "6",
            "--support-material"])
      ∧ ((1 : ℚ) < Dec.val ⟨25, 1⟩ ∧ Dec.val ⟨25, 1⟩ ≤ 2 →
          extra = ["--support-material"])
      ∧ (Dec.val ⟨25, 1⟩ ≤ 1 → extra = []) :=
  runSlicer_threshold_flags id
    ⟨"/sl", "/cfg.ini", "0.2", "PLA", "MK3S",
      [⟨"/in.stl", [], "/tmp/t/translated_1.stl", "2.5"⟩]⟩
    "/prints/model.stl" [] ⟨25, 1⟩ (by decide)

/-- C4: the output filename assembled by `__runSlicer` is the stem of the
(resolved) output path followed, in this order, by `_<layer_height>mm`,
`_U<max unprintability>`, the literal placeholder `_{print_time}`,
`_<filament_type>`, `_<printer_model>` and `.gcode`, placed in the output
path's directory. -/
theorem runSlicer_output_filename (resolve : String → String)
    (st : AutoSlicerState) (output_path : String)
    (kwargs : List (String × String)) (u : Dec)
    (hu : volumesUnprintability st.volumes = some u)
    (hp : (pathParts (resolve output_path)).dropLast ≠ []) :
    (runSlicer resolve st output_path kwargs).map Prod.snd
      = some (pathParent (resolve output_path) ++ "/"
          ++ (pathStem (resolve output_path)
            ++ ("_" ++ st.layer_height ++ "mm")
            ++ ("_U" ++ pyFloatRepr u)
            ++ "_\x7bprint_time\x7d"
            ++ ("_" ++ st.filament_type)
            ++ ("_" ++ st.printer_model)
            ++ ".gcode")) := by
  have hF : ∀ nm, pathWithName (resolve output_path) nm
      = pathParent (resolve output_path) ++ "/" ++ nm := by
    intro nm
    unfold pathWithName pathParent
    exact joinParts_append_singleton _ nm hp
  unfold runSlicer
  rw [hu]
  dsimp only
  rw [hF]
  simp only [Option.map, String.append_assoc]

/-- C4 witness: a resolved absolute output path gets its assembled `.gcode`
name in the same directory. -/
theorem runSlicer_output_filename_witness :
    (runSlicer id ⟨"/sl", "/cfg.ini", "0.2", "PLA", "MK3S",
          [⟨"/in.stl", [], "/tmp/t/translated_1.stl", "2.5"⟩]⟩
        "/prints/model.stl" []).map Prod.snd
      = some (pathParent (id "/prints/model.stl") ++ "/"
          ++ (pathStem (id "/prints/model.stl")
            ++ ("_" ++ "0.2" ++ "mm")
            ++ ("_U" ++ pyFloatRepr ⟨25, 1⟩)
            ++ "_\x7bprint_time\x7d"
            ++ ("_" ++ "PLA")
            ++ ("_" ++ "MK3S")
            ++ ".gcode")) :=
  runSlicer_output_filename id
    ⟨"/sl", "/cfg.ini", "0.2", "PLA", "MK3S",
      [⟨"/in.stl", [], "/tmp/t/translated_1.stl", "2.5"⟩]⟩
    "/prints/model.stl" [] ⟨25, 1⟩ (by decide) (by decide)

/-- C8: every intermediate file written during `slice` (the tweaked and the
translated meshes) lies inside the per-run temporary directory, and after
the directory is torn down the filesystem holds exactly the old files plus
the output `.gcode` file — no other state persists. -/
theorem slice_fs_only_output_persists (fs : List String) (tmpdir out : String)
    (n : ℕ)
    (hfs : ∀ p ∈ fs, underTmpdir tmpdir p = false)
    (hout : underTmpdir tmpdir out = false) :
    (∀ q ∈ sliceWrites tmpdir n fs, q ∈ fs ∨ underTmpdir tmpdir q = true)
    ∧ ∀ q, q ∈ slice_fs fs tmpdir n out ↔ (q ∈ fs ∨ q = out) := by
  obtain ⟨adds, heq, hadds⟩ := sliceWrites_split tmpdir n fs
  have houtadds : out ∉ adds := by
    intro hmem
    rw [hadds out hmem] at hout
    cases hout
  constructor
  · intro q hq
    rw [heq, List.mem_append] at hq
    exact hq.imp id (hadds q)
  · intro q
    unfold slice_fs teardownTmpdir
    rw [heq, createFile_eq]
    simp only [List.filter_append, List.mem_append, List.mem_filter,
      Bool.not_eq_true']
    constructor
    · rintro ((⟨hin, -⟩ | ⟨hin, hkeep⟩) | ⟨hin, -⟩)
      · exact Or.inl hin
      · exact absurd (hadds q hin) (by rw [hkeep]; intro h; cases h)
      · right
        by_cases hc : out ∈ fs ∨ out ∈ adds
        · rw [if_pos hc] at hin
          cases hin
        · rw [if_neg hc] at hin
          simpa using hin
    · rintro (hq | hq2)
      · exact Or.inl (Or.inl ⟨hq, hfs q hq⟩)
      · rw [hq2]
        by_cases hc : out ∈ fs
        · exact Or.inl (Or.inl ⟨hc, hfs out hc⟩)
        · have hc2 : ¬(out ∈ fs ∨ out ∈ adds) := by
            rintro (h | h)
            · exact hc h
            · exact houtadds h
          right
          rw [if_neg hc2]
          exact ⟨List.mem_singleton.mpr rfl, hout⟩

/-- C8 witness: two volumes, a clean temporary directory, and an output path
outside it. -/
theorem slice_fs_only_output_persists_witness :
    (∀ q ∈ sliceWrites "/tmp/t" 2 ["/home/a.stl"],
      q ∈ ["/home/a.stl"] ∨ underTmpdir "/tmp/t" q = true)
    ∧ ∀ q, q ∈ slice_fs ["/home/a.stl"] "/tmp/t" 2 "/out/x.gcode"
        ↔ (q ∈ ["/home/a.stl"] ∨ q = "/out/x.gcode") :=
  slice_fs_only_output_persists ["/home/a.stl"] "/tmp/t" "/out/x.gcode" 2
    (by decide) (by decide)

/-- C5 counterexample: with only the slicer executable missing, the
`__main__` validation prints an error message but does not exit — the claim
that every reported error leads to an exit fails here. -/
theorem main_validate_no_exit_on_missing_slicer :
    main_validate ⟨true, "stl", true, false, true⟩
      = ⟨["Error: slicer not found at"], false⟩ := by decide

/-- C5 (amended): a missing input file and an invalid input extension are
reported on standard output and the program exits; a missing slicer
executable and a missing printer configuration file are reported on
standard output but the program does not exit; a failure around the
external orientation optimizer is caught, a message is printed, and the
method returns `None` instead of exiting. -/
theorem main_validate_error_reporting (env : MainEnv) :
    (env.input_exists = false →
      main_validate env = ⟨["Error: input file not found"], true⟩)
    ∧ (env.input_exists = true →
        (pyLower env.input_extension ∈ (["stl", "3mf"] : List String)) = false →
        main_validate env
          = ⟨["Error: input file has invalid format",
              "Files need to be .stl or .3mf, not ." ++ pyLower env.input_extension],
            true⟩)
    ∧ (env.input_exists = true →
        (pyLower env.input_extension ∈ (["stl", "3mf"] : List String)) = true →
        (main_validate env).exited = false
        ∧ (env.slicer_exists = false →
            "Error: slicer not found at" ∈ (main_validate env).printed)
        ∧ (env.config_exists = false →
            "Error: printer config file not found at" ∈ (main_validate env).printed))
    ∧ (∀ stdout tmpdir, (pySplitlines stdout).length < 5 →
        tweakFile stdout tmpdir = none) := by
  refine ⟨?_, ?_, ?_, ?_⟩
  · intro h
    simp [main_validate, h]
  · intro h1 h2
    simp [main_validate, h1, h2]
  · intro h1 h2
    refine ⟨?_, ?_, ?_⟩
    · simp [main_validate, h1, h2]
    · intro h3
      simp [main_validate, h1, h2, h3]
    · intro h3
      simp [main_validate, h1, h2, h3]
  · intro stdout tmpdir h
    simp [tweakFile, Nat.not_le.mpr h]

/-- C5 witness for the amended statement: a missing input file exits; a
missing slicer and a missing printer configuration print but fall
through. -/
theorem main_validate_error_reporting_witness :
    main_validate ⟨false, "x", true, true, true⟩
      = ⟨["Error: input file not found"], true⟩
    ∧ (main_validate ⟨true, "stl", true, false, false⟩).exited = false
    ∧ "Error: slicer not found at"
        ∈ (main_validate ⟨true, "stl", true, false, false⟩).printed
    ∧ "Error: printer config file not found at"
        ∈ (main_validate ⟨true, "stl", true, false, false⟩).printed := by
  have h1 := (main_validate_error_reporting ⟨false, "x", true, true, true⟩).1 rfl
  have h3 := (main_validate_error_reporting
    ⟨true, "stl", true, false, false⟩).2.2.1 rfl (by decide)
  exact ⟨h1, h3.1, h3.2.1 rfl, h3.2.2 rfl⟩

end Autoslicer
